import Mathlib

/-!
Verification of pswalker's branching command-stream engine
(src/pswalker/skywalker.py) against its specification.

The central object is `branching_plan` (skywalker.py lines 23-76): a bluesky
`plan_mutator` whose message handler intercepts trigger messages
(default command kind `checkpoint`), guards branching with a non-blocking
`Lock`, and substitutes a generator `new_gen` that re-acquires the lock
(`with branch_lock:`), re-evaluates `branch_choice`, emits a fresh
`checkpoint()`, runs `do_branch()` (which evaluates `branch_choice` again and
either yields `null()` or runs the chosen branch plan), and finally re-yields
the original message.

The embedding below models the observable behaviour of this machinery as an
event trace: command emissions into the output stream, lock acquisitions and
releases (both the handler's non-blocking attempt and the generator's
re-acquire), and selector evaluations.  The selector, a zero-argument stateful
Python callable, is modelled as a function of its evaluation count.  Messages
yielded by the substituted generator are routed through the handler again by
`plan_mutator` — except the original message object itself, which
`plan_mutator` recognises (its `msgs_seen` table) and passes through without
reprocessing.  A branch plan that raises is modelled by a `fails` flag: it
emits its commands and then the exception propagates, aborting the stream,
with the `with` statement releasing the lock on the way out.
-/

namespace Pswalker

/-- Kind (the `command` field) of a bluesky message, restricted to the kinds
the branching engine manipulates. -/
inductive CmdKind where
  | checkpoint
  | move
  | null
  deriving DecidableEq, Repr

/-- A command (bluesky `Msg`) in a plan's stream: a checkpoint, an actuator
move with a target, or a null message. -/
inductive Cmd where
  | checkpoint : Cmd
  | move : Int → Cmd
  | null : Cmd
  deriving DecidableEq, Repr

/-- The kind tag of a command. -/
def Cmd.kind : Cmd → CmdKind
  | .checkpoint => .checkpoint
  | .move _ => .move
  | .null => .null

/-- A branch plan: it emits its commands in order; `fails = true` models a
branch that raises a terminal failure after its last emitted command. -/
structure BPlan where
  cmds : List Cmd
  fails : Bool
  deriving DecidableEq, Repr

/-- Configuration of one branching engine instance: the list of branch plans
(`branches`), the selector (`branch_choice`, modelled as a function of its
evaluation count), and the trigger message kind (`branch_msg`). -/
structure Engine where
  branches : List BPlan
  choice : Nat → Option Nat
  bmsg : CmdKind

/-- Observable events of the engine: a command emitted to the output stream,
a non-blocking lock-acquire attempt (with its outcome), the substitution
generator's blocking re-acquire, a lock release, and a selector evaluation
(with its call index and result). -/
inductive Ev where
  | emit (c : Cmd)
  | acqTry (got : Bool)
  | acq
  | rel
  | eval (k : Nat) (res : Option Nat)
  deriving DecidableEq, Repr

/-- Lock state after a list of events, starting from lock state `l`. -/
def lockAfter (l : Bool) : List Ev → Bool
  | [] => l
  | Ev.emit _ :: rest => lockAfter l rest
  | Ev.acqTry g :: rest => lockAfter (l || g) rest
  | Ev.acq :: rest => lockAfter true rest
  | Ev.rel :: rest => lockAfter false rest
  | Ev.eval _ _ :: rest => lockAfter l rest

/-- The output command stream of a trace: the emitted commands, in order. -/
def output : List Ev → List Cmd
  | [] => []
  | Ev.emit c :: rest => c :: output rest
  | Ev.acqTry _ :: rest => output rest
  | Ev.acq :: rest => output rest
  | Ev.rel :: rest => output rest
  | Ev.eval _ _ :: rest => output rest

/-- Each emitted command paired with the lock state at the moment of its
emission, starting from lock state `l`. -/
def emitsWithLock (l : Bool) : List Ev → List (Cmd × Bool)
  | [] => []
  | Ev.emit c :: rest => (c, l) :: emitsWithLock l rest
  | Ev.acqTry g :: rest => emitsWithLock (l || g) rest
  | Ev.acq :: rest => emitsWithLock true rest
  | Ev.rel :: rest => emitsWithLock false rest
  | Ev.eval _ _ :: rest => emitsWithLock l rest

/-- True when no lock acquisition ever succeeds while the lock is already
held: every blocking re-acquire finds the lock free, and every non-blocking
attempt made while the lock is held fails.  This is the trace form of the
single-active-branch invariant. -/
def noNestedAcq (l : Bool) : List Ev → Bool
  | [] => true
  | Ev.emit _ :: rest => noNestedAcq l rest
  | Ev.acqTry g :: rest => !(l && g) && noNestedAcq (l || g) rest
  | Ev.acq :: rest => !l && noNestedAcq true rest
  | Ev.rel :: rest => noNestedAcq false rest
  | Ev.eval _ _ :: rest => noNestedAcq l rest

/-- Events produced when a message is yielded by the substitution generator
while the lock is held: `plan_mutator` routes it through `branch_handler`
again; a trigger message fails the non-blocking acquire and passes through
unchanged, any other message passes through untouched. -/
def passCmd (bmsg : CmdKind) (c : Cmd) : List Ev :=
  if c.kind = bmsg then [Ev.acqTry false, Ev.emit c] else [Ev.emit c]

/-- `passCmd` applied to every command of a branch plan's stream, in order. -/
def passAll (bmsg : CmdKind) : List Cmd → List Ev
  | [] => []
  | c :: rest => passCmd bmsg c ++ passAll bmsg rest

/-- Trace of handling one trigger message pulled from the primary plan with
the lock free (skywalker.py lines 44-73): the handler acquires the lock
non-blocking, releases it in its `finally`, and returns the substitution
generator; the generator re-acquires with `with branch_lock:`, evaluates
`branch_choice`; on `None` it just re-yields the original message; on an
index it yields a fresh `checkpoint()`, then `do_branch` evaluates
`branch_choice` a second time and either yields `null()` (second result
`None`), raises `IndexError` (index out of range), or runs the chosen branch
to completion; finally the original message is re-yielded (passed through by
`plan_mutator` without reprocessing) and the `with` releases the lock — also
when the branch raised, in which case the exception propagates and the
original message is never delivered.  Returns the events, the selector call
counter afterwards, and whether the stream survives (no exception). -/
def triggerTrace (e : Engine) (msg : Cmd) (n : Nat) : List Ev × Nat × Bool :=
  match e.choice n with
  | none =>
      ([Ev.acqTry true, Ev.rel, Ev.acq, Ev.eval n none, Ev.emit msg, Ev.rel],
       n + 1, true)
  | some i =>
      let hd := [Ev.acqTry true, Ev.rel, Ev.acq, Ev.eval n (some i)]
                  ++ passCmd e.bmsg Cmd.checkpoint
      match e.choice (n + 1) with
      | none =>
          (hd ++ [Ev.eval (n + 1) none] ++ passCmd e.bmsg Cmd.null
              ++ [Ev.emit msg, Ev.rel], n + 2, true)
      | some j =>
          match e.branches[j]? with
          | none =>
              (hd ++ [Ev.eval (n + 1) (some j), Ev.rel], n + 2, false)
          | some b =>
              if b.fails then
                (hd ++ [Ev.eval (n + 1) (some j)] ++ passAll e.bmsg b.cmds
                    ++ [Ev.rel], n + 2, false)
              else
                (hd ++ [Ev.eval (n + 1) (some j)] ++ passAll e.bmsg b.cmds
                    ++ [Ev.emit msg, Ev.rel], n + 2, true)

/-- One message pulled by `plan_mutator` and fed to `branch_handler`, with
the current lock state: non-trigger messages pass through untouched; a
trigger finding the lock held fails the non-blocking acquire and passes
through; a trigger finding the lock free starts a branching decision. -/
def stepMsg (e : Engine) (lock : Bool) (msg : Cmd) (n : Nat) :
    List Ev × Nat × Bool :=
  if msg.kind = e.bmsg then
    if lock then ([Ev.acqTry false, Ev.emit msg], n, true)
    else triggerTrace e msg n
  else ([Ev.emit msg], n, true)

/-- The branching engine run over a finite primary plan starting at selector
call counter `n`.  Between primary messages the lock is free (each trigger's
handling releases it on every path), so each message is handled from the
unlocked state; if a branch raises, the exception propagates and the rest of
the primary plan is abandoned. -/
def engineTrace (e : Engine) : List Cmd → Nat → List Ev × Nat × Bool
  | [], n => ([], n, true)
  | c :: rest, n =>
      let s := stepMsg e false c n
      if s.2.2 then
        let r := engineTrace e rest s.2.1
        (s.1 ++ r.1, r.2.1, r.2.2)
      else s

/-- Output command stream of the engine from selector counter `n`. -/
def engineOutFrom (e : Engine) (plan : List Cmd) (n : Nat) : List Cmd :=
  output (engineTrace e plan n).1

/-- Output command stream of the engine on a primary plan. -/
def engineOut (e : Engine) (plan : List Cmd) : List Cmd :=
  engineOutFrom e plan 0

/-- A yag screen as seen by the selector: whether its `position` attribute
reads `IN`, and the successive values returned by `get_thresh_signal` on it
(the `i`-th read of the sampling loop returns `sig i`). -/
structure Yag where
  pos_in : Bool
  sig : Nat → Int

/-- The selector returned by `make_pick_recover` (skywalker.py lines
212-238).  Its body begins with an unconditional `return None`, so the
two-sensor sampling logic that follows it is unreachable and the function
always returns `None`. -/
def pick_recover (yag1 yag2 : Yag) (threshold : Int × Int) : Option Nat :=
  none

/-- Maximum of the first `num` successive signal reads of a yag — the
`max(sigs)` computed over the sampling loop in `pick_recover`'s unreachable
tail (for `num = 0` Python's `max` would raise; the code uses `num = 25`). -/
def sampleMax (y : Yag) (num : Nat) : Int :=
  (List.range num).foldl (fun m i => max m (y.sig i)) (y.sig 0)

/-- The unreachable tail of `pick_recover` (skywalker.py lines 219-236),
translated as if the leading `return None` were absent: inspect which yag is
`IN` (yag1 with static priority), take 25 back-to-back samples from it, and
return its branch index when the maximum sample is below its floor; when
neither yag is `IN` the Python body falls off the end, returning `None`. -/
def pick_recover_tail (yag1 yag2 : Yag) (threshold : Int × Int) :
    Option Nat :=
  if yag1.pos_in then
    if sampleMax yag1 25 < threshold.1 then some 0 else none
  else if yag2.pos_in then
    if sampleMax yag2 25 < threshold.2 then some 1 else none
  else none

/-- Initial scan direction chosen inside `make_homs_recover`'s `homs_recover`
(skywalker.py lines 196-201): `1` when the motor's current position is
strictly below the center setpoint, else `-1`.  Positions are modelled as
rationals. -/
def homs_recover_dir_init (position center : ℚ) : Int :=
  if position < center then 1 else -1

/-- The goals dataflow of `homs_skywalker` (skywalker.py lines 303-314 and
325-332): the metadata dict records the incoming `goals` list verbatim (it is
built before the transformation), and the goals actually handed to the
underlying `skywalker` plan are `[480 - g for g in goals]`. -/
structure HomsGoals where
  md_goals : List ℚ
  driven_goals : List ℚ

/-- Goal handling performed by `homs_skywalker` on its `goals` argument. -/
def homs_skywalker_goals (goals : List ℚ) : HomsGoals :=
  ⟨goals, goals.map (fun g => 480 - g)⟩

/-- Modelled from the spec: `pswalker/path.py`'s `prune_path` is not under
src (only its test, src/tests/test_path.py, is).  Per the spec's exclusion
correctness property, it returns a new path whose device collection is the
original collection minus the excluded devices, without fabricating elements
or mutating the original. -/
def prune_path {α : Type} [DecidableEq α] (devices exclude : List α) :
    List α :=
  devices.filter (fun d => decide (d ∉ exclude))

/-! Helper lemmas about the trace folds. -/

theorem output_append (a b : List Ev) : output (a ++ b) = output a ++ output b := by
  induction a with
  | nil => rfl
  | cons e rest ih => cases e <;> simp [output, ih]

theorem lockAfter_append (l : Bool) (a b : List Ev) :
    lockAfter l (a ++ b) = lockAfter (lockAfter l a) b := by
  induction a generalizing l with
  | nil => rfl
  | cons e rest ih => cases e <;> simp [lockAfter, ih]

theorem emitsWithLock_append (l : Bool) (a b : List Ev) :
    emitsWithLock l (a ++ b)
      = emitsWithLock l a ++ emitsWithLock (lockAfter l a) b := by
  induction a generalizing l with
  | nil => rfl
  | cons e rest ih => cases e <;> simp [emitsWithLock, lockAfter, ih]

theorem noNestedAcq_append (l : Bool) (a b : List Ev) :
    noNestedAcq l (a ++ b)
      = (noNestedAcq l a && noNestedAcq (lockAfter l a) b) := by
  induction a generalizing l with
  | nil => rfl
  | cons e rest ih =>
    cases e <;> simp [noNestedAcq, lockAfter, ih, Bool.and_assoc]

theorem output_passCmd (k : CmdKind) (c : Cmd) : output (passCmd k c) = [c] := by
  by_cases h : c.kind = k <;> simp [passCmd, h, output]

theorem lockAfter_passCmd (l : Bool) (k : CmdKind) (c : Cmd) :
    lockAfter l (passCmd k c) = l := by
  by_cases h : c.kind = k <;> simp [passCmd, h, lockAfter]

theorem emitsWithLock_passCmd (l : Bool) (k : CmdKind) (c : Cmd) :
    emitsWithLock l (passCmd k c) = [(c, l)] := by
  by_cases h : c.kind = k <;> simp [passCmd, h, emitsWithLock]

theorem noNestedAcq_passCmd (l : Bool) (k : CmdKind) (c : Cmd) :
    noNestedAcq l (passCmd k c) = true := by
  by_cases h : c.kind = k <;> simp [passCmd, h, noNestedAcq]

theorem output_passAll (k : CmdKind) (cmds : List Cmd) :
    output (passAll k cmds) = cmds := by
  induction cmds with
  | nil => rfl
  | cons c rest ih => simp [passAll, output_append, output_passCmd, ih]

theorem lockAfter_passAll (l : Bool) (k : CmdKind) (cmds : List Cmd) :
    lockAfter l (passAll k cmds) = l := by
  induction cmds with
  | nil => rfl
  | cons c rest ih => simp [passAll, lockAfter_append, lockAfter_passCmd, ih]

theorem emitsWithLock_passAll (l : Bool) (k : CmdKind) (cmds : List Cmd) :
    emitsWithLock l (passAll k cmds) = cmds.map (fun c => (c, l)) := by
  induction cmds with
  | nil => rfl
  | cons c rest ih =>
    simp [passAll, emitsWithLock_append, emitsWithLock_passCmd,
          lockAfter_passCmd, ih]

theorem noNestedAcq_passAll (l : Bool) (k : CmdKind) (cmds : List Cmd) :
    noNestedAcq l (passAll k cmds) = true := by
  induction cmds with
  | nil => rfl
  | cons c rest ih =>
    simp [passAll, noNestedAcq_append, noNestedAcq_passCmd,
          lockAfter_passCmd, ih]

/-! Case-analysis lemmas for the engine's step functions. -/

theorem triggerTrace_none (e : Engine) (msg : Cmd) (n : Nat)
    (h : e.choice n = none) :
    triggerTrace e msg n
      = ([Ev.acqTry true, Ev.rel, Ev.acq, Ev.eval n none, Ev.emit msg,
          Ev.rel], n + 1, true) := by
  simp [triggerTrace, h]

theorem triggerTrace_nullBranch (e : Engine) (msg : Cmd) (n i : Nat)
    (h1 : e.choice n = some i) (h2 : e.choice (n + 1) = none) :
    triggerTrace e msg n
      = ([Ev.acqTry true, Ev.rel, Ev.acq, Ev.eval n (some i)]
           ++ passCmd e.bmsg Cmd.checkpoint ++ [Ev.eval (n + 1) none]
           ++ passCmd e.bmsg Cmd.null ++ [Ev.emit msg, Ev.rel],
         n + 2, true) := by
  simp [triggerTrace, h1, h2]

theorem triggerTrace_branch (e : Engine) (msg : Cmd) (n i j : Nat) (b : BPlan)
    (h1 : e.choice n = some i) (h2 : e.choice (n + 1) = some j)
    (h3 : e.branches[j]? = some b) (h4 : b.fails = false) :
    triggerTrace e msg n
      = ([Ev.acqTry true, Ev.rel, Ev.acq, Ev.eval n (some i)]
           ++ passCmd e.bmsg Cmd.checkpoint ++ [Ev.eval (n + 1) (some j)]
           ++ passAll e.bmsg b.cmds ++ [Ev.emit msg, Ev.rel],
         n + 2, true) := by
  simp [triggerTrace, h1, h2, h3, h4]

theorem triggerTrace_fail (e : Engine) (msg : Cmd) (n i j : Nat) (b : BPlan)
    (h1 : e.choice n = some i) (h2 : e.choice (n + 1) = some j)
    (h3 : e.branches[j]? = some b) (h4 : b.fails = true) :
    triggerTrace e msg n
      = ([Ev.acqTry true, Ev.rel, Ev.acq, Ev.eval n (some i)]
           ++ passCmd e.bmsg Cmd.checkpoint ++ [Ev.eval (n + 1) (some j)]
           ++ passAll e.bmsg b.cmds ++ [Ev.rel],
         n + 2, false) := by
  simp [triggerTrace, h1, h2, h3, h4]

theorem triggerTrace_badIndex (e : Engine) (msg : Cmd) (n i j : Nat)
    (h1 : e.choice n = some i) (h2 : e.choice (n + 1) = some j)
    (h3 : e.branches[j]? = none) :
    triggerTrace e msg n
      = ([Ev.acqTry true, Ev.rel, Ev.acq, Ev.eval n (some i)]
           ++ passCmd e.bmsg Cmd.checkpoint
           ++ [Ev.eval (n + 1) (some j), Ev.rel],
         n + 2, false) := by
  simp [triggerTrace, h1, h2, h3]

theorem engineTrace_cons_pass (e : Engine) (c : Cmd) (rest : List Cmd)
    (n : Nat) (h : c.kind ≠ e.bmsg) :
    engineTrace e (c :: rest) n
      = (Ev.emit c :: (engineTrace e rest n).1,
         (engineTrace e rest n).2.1, (engineTrace e rest n).2.2) := by
  simp [engineTrace, stepMsg, h]

theorem engineTrace_cons_trigger_ok (e : Engine) (c : Cmd) (rest : List Cmd)
    (n n1 : Nat) (tr : List Ev) (hk : c.kind = e.bmsg)
    (ht : triggerTrace e c n = (tr, n1, true)) :
    engineTrace e (c :: rest) n
      = (tr ++ (engineTrace e rest n1).1,
         (engineTrace e rest n1).2.1, (engineTrace e rest n1).2.2) := by
  simp [engineTrace, stepMsg, hk, ht]

theorem engineTrace_cons_trigger_fail (e : Engine) (c : Cmd)
    (rest : List Cmd) (n n1 : Nat) (tr : List Ev) (hk : c.kind = e.bmsg)
    (ht : triggerTrace e c n = (tr, n1, false)) :
    engineTrace e (c :: rest) n = (tr, n1, false) := by
  simp [engineTrace, stepMsg, hk, ht]

/-! Lock discipline of a single trigger handling, and of whole runs. -/

theorem triggerTrace_lock (e : Engine) (msg : Cmd) (n : Nat) :
    lockAfter false (triggerTrace e msg n).1 = false
      ∧ noNestedAcq false (triggerTrace e msg n).1 = true := by
  rcases h1 : e.choice n with _ | i
  · rw [triggerTrace_none e msg n h1]
    constructor <;> simp [lockAfter, noNestedAcq]
  · rcases h2 : e.choice (n + 1) with _ | j
    · rw [triggerTrace_nullBranch e msg n i h1 h2]
      constructor <;>
        simp [lockAfter_append, noNestedAcq_append, lockAfter_passCmd,
              noNestedAcq_passCmd, lockAfter, noNestedAcq]
    · rcases h3 : e.branches[j]? with _ | b
      · rw [triggerTrace_badIndex e msg n i j h1 h2 h3]
        constructor <;>
          simp [lockAfter_append, noNestedAcq_append, lockAfter_passCmd,
                noNestedAcq_passCmd, lockAfter, noNestedAcq]
      · rcases h4 : b.fails
        · rw [triggerTrace_branch e msg n i j b h1 h2 h3 h4]
          constructor <;>
            simp [lockAfter_append, noNestedAcq_append, lockAfter_passCmd,
                  noNestedAcq_passCmd, lockAfter_passAll, noNestedAcq_passAll,
                  lockAfter, noNestedAcq]
        · rw [triggerTrace_fail e msg n i j b h1 h2 h3 h4]
          constructor <;>
            simp [lockAfter_append, noNestedAcq_append, lockAfter_passCmd,
                  noNestedAcq_passCmd, lockAfter_passAll, noNestedAcq_passAll,
                  lockAfter, noNestedAcq]

theorem engineTrace_noNested (e : Engine) (plan : List Cmd) (n : Nat) :
    noNestedAcq false (engineTrace e plan n).1 = true := by
  induction plan generalizing n with
  | nil => rfl
  | cons c rest ih =>
    by_cases hk : c.kind = e.bmsg
    · rcases htt : triggerTrace e c n with ⟨tr, n1, ok⟩
      have hlock := triggerTrace_lock e c n
      rw [htt] at hlock
      rcases ok
      · rw [engineTrace_cons_trigger_fail e c rest n n1 tr hk htt]
        exact hlock.2
      · rw [engineTrace_cons_trigger_ok e c rest n n1 tr hk htt]
        simp [noNestedAcq_append, hlock.1, hlock.2, ih]
    · rw [engineTrace_cons_pass e c rest n hk]
      simp [noNestedAcq, ih]

/-! Output shape of a single primary-plan message's handling. -/

theorem engineOutFrom_pass (e : Engine) (c : Cmd) (rest : List Cmd) (n : Nat)
    (h : c.kind ≠ e.bmsg) :
    engineOutFrom e (c :: rest) n = c :: engineOutFrom e rest n := by
  simp [engineOutFrom, engineTrace_cons_pass e c rest n h, output]

theorem engineOutFrom_trigger_none (e : Engine) (msg : Cmd) (rest : List Cmd)
    (n : Nat) (hk : msg.kind = e.bmsg) (h : e.choice n = none) :
    engineOutFrom e (msg :: rest) n = msg :: engineOutFrom e rest (n + 1) := by
  simp [engineOutFrom,
        engineTrace_cons_trigger_ok e msg rest n (n + 1) _ hk
          (triggerTrace_none e msg n h),
        output, output_append]

theorem engineOutFrom_trigger_branch (e : Engine) (msg : Cmd)
    (rest : List Cmd) (n i j : Nat) (b : BPlan) (hk : msg.kind = e.bmsg)
    (h1 : e.choice n = some i) (h2 : e.choice (n + 1) = some j)
    (h3 : e.branches[j]? = some b) (h4 : b.fails = false) :
    engineOutFrom e (msg :: rest) n
      = Cmd.checkpoint :: (b.cmds ++ msg :: engineOutFrom e rest (n + 2)) := by
  simp [engineOutFrom,
        engineTrace_cons_trigger_ok e msg rest n (n + 2) _ hk
          (triggerTrace_branch e msg n i j b h1 h2 h3 h4),
        output, output_append, output_passCmd, output_passAll]

theorem engineOutFrom_trigger_nullBranch (e : Engine) (msg : Cmd)
    (rest : List Cmd) (n i : Nat) (hk : msg.kind = e.bmsg)
    (h1 : e.choice n = some i) (h2 : e.choice (n + 1) = none) :
    engineOutFrom e (msg :: rest) n
      = Cmd.checkpoint :: Cmd.null :: msg :: engineOutFrom e rest (n + 2) := by
  simp [engineOutFrom,
        engineTrace_cons_trigger_ok e msg rest n (n + 2) _ hk
          (triggerTrace_nullBranch e msg n i h1 h2),
        output, output_append, output_passCmd]

/-! Concrete engine instances used in scenarios and witnesses. -/

/-- Engine of the spec's branching scenario: one branch emitting `Move(7)`
(the scenario's `Move(R)`), a selector returning `0` during the first
checkpoint's handling (its first two evaluations) and `None` afterwards, and
the default trigger kind `checkpoint`. -/
def scenarioEngine : Engine :=
  ⟨[⟨[Cmd.move 7], false⟩], fun n => if n < 2 then some 0 else none,
   CmdKind.checkpoint⟩

/-- The spec scenario's primary plan `[Checkpoint, Move(A), Checkpoint,
Move(B)]`, with `Move(1)` as `Move(A)` and `Move(2)` as `Move(B)`. -/
def scenarioPlan : List Cmd :=
  [Cmd.checkpoint, Cmd.move 1, Cmd.checkpoint, Cmd.move 2]

/-- Engine whose selector always returns `None`. -/
def noopEngine : Engine := ⟨[], fun _ => none, CmdKind.checkpoint⟩

/-- Engine whose single branch raises a terminal failure after `Move(3)`. -/
def failEngine : Engine :=
  ⟨[⟨[Cmd.move 3], true⟩], fun _ => some 0, CmdKind.checkpoint⟩

/-- Engine whose selector returns `1` on its first evaluation and `0` on its
second, exposing which evaluation picks the executed branch. -/
def twoEvalEngine : Engine :=
  ⟨[⟨[Cmd.move 5], false⟩, ⟨[Cmd.move 9], false⟩],
   fun n => if n = 0 then some 1 else if n = 1 then some 0 else none,
   CmdKind.checkpoint⟩

/-! Claim theorems. -/

/-- C1: at a trigger command where the selector returns a branch index `i`
(on both evaluations made during that trigger's handling), the engine's
output replaces the trigger with a fresh trigger command, the commands of
branch `i` run to completion, then the original trigger, after which the
remaining primary commands follow in their original order; and the spec's
concrete scenario (primary `[Checkpoint, Move(1), Checkpoint, Move(2)]`,
selector firing with `0` at the first checkpoint only, branch 0 emitting
`Move(7)`) produces exactly
`[Checkpoint, Move(7), Checkpoint, Move(1), Checkpoint, Move(2)]`. -/
theorem branch_substitution_C1 :
    (∀ (e : Engine) (msg : Cmd) (rest : List Cmd) (n i : Nat) (b : BPlan),
        e.bmsg = CmdKind.checkpoint → msg.kind = e.bmsg →
        e.choice n = some i → e.choice (n + 1) = some i →
        e.branches[i]? = some b → b.fails = false →
        engineOutFrom e (msg :: rest) n
            = Cmd.checkpoint :: (b.cmds ++ msg :: engineOutFrom e rest (n + 2))
          ∧ Cmd.checkpoint.kind = e.bmsg)
      ∧ engineOut scenarioEngine scenarioPlan
          = [Cmd.checkpoint, Cmd.move 7, Cmd.checkpoint, Cmd.move 1,
             Cmd.checkpoint, Cmd.move 2] := by
  constructor
  · intro e msg rest n i b hb hk h1 h2 h3 h4
    refine ⟨engineOutFrom_trigger_branch e msg rest n i i b hk h1 h2 h3 h4, ?_⟩
    rw [hb]
    rfl
  · decide

/-- Witness for C1: the hypotheses of the general part hold at the scenario
engine's first checkpoint, and the substitution shape follows. -/
theorem branch_substitution_C1_witness :
    scenarioEngine.bmsg = CmdKind.checkpoint
      ∧ Cmd.checkpoint.kind = scenarioEngine.bmsg
      ∧ scenarioEngine.choice 0 = some 0
      ∧ scenarioEngine.choice 1 = some 0
      ∧ scenarioEngine.branches[0]? = some ⟨[Cmd.move 7], false⟩
      ∧ engineOutFrom scenarioEngine (Cmd.checkpoint :: [Cmd.move 1]) 0
          = Cmd.checkpoint :: ([Cmd.move 7] ++ Cmd.checkpoint
              :: engineOutFrom scenarioEngine [Cmd.move 1] 2) :=
  ⟨rfl, rfl, rfl, rfl, rfl,
   (branch_substitution_C1.1 scenarioEngine Cmd.checkpoint [Cmd.move 1] 0 0
      ⟨[Cmd.move 7], false⟩ rfl rfl rfl rfl rfl rfl).1⟩

/-- C2: if the selector returns `None` at every evaluation, the engine's
output stream is identical command-for-command to the primary plan. -/
theorem noop_branching_C2 (e : Engine) (plan : List Cmd) (n : Nat)
    (h : ∀ m, e.choice m = none) :
    engineOutFrom e plan n = plan := by
  induction plan generalizing n with
  | nil => rfl
  | cons c rest ih =>
    by_cases hk : c.kind = e.bmsg
    · rw [engineOutFrom_trigger_none e c rest n hk (h n), ih]
    · rw [engineOutFrom_pass e c rest n hk, ih]

/-- Witness for C2: a 4-command primary plan comes out exactly as it went in
under an always-`None` selector. -/
theorem noop_branching_C2_witness :
    (∀ m, noopEngine.choice m = none)
      ∧ engineOutFrom noopEngine
          [Cmd.checkpoint, Cmd.move 1, Cmd.checkpoint, Cmd.move 2] 0
        = [Cmd.checkpoint, Cmd.move 1, Cmd.checkpoint, Cmd.move 2] :=
  ⟨fun _ => rfl,
   noop_branching_C2 noopEngine
     [Cmd.checkpoint, Cmd.move 1, Cmd.checkpoint, Cmd.move 2] 0
     (fun _ => rfl)⟩

/-- C3 counterexample: in the spec's own scenario, the branch plan's command
`Move(7)` is emitted while the BranchLock is held, refuting the claim that
the lock is never held across the execution of the branch plan. -/
theorem lock_window_C3_counterexample :
    ¬ (∀ p ∈ emitsWithLock false
          (engineTrace scenarioEngine scenarioPlan 0).1,
        p.1 = Cmd.move 7 → p.2 = false) := by
  decide

/-- C3 (amended): when the selector returns an index, the handler's critical
section releases the lock before the substitution generator starts (the
trace begins acquire-try, release, re-acquire), but the generator then holds
the re-acquired lock across the entire substitution — every command of the
substitution, branch plan included, is emitted with the lock held — and the
lock is free again once the substitution completes. -/
theorem lock_window_C3 (e : Engine) (msg : Cmd) (n i j : Nat) (b : BPlan)
    (h1 : e.choice n = some i) (h2 : e.choice (n + 1) = some j)
    (h3 : e.branches[j]? = some b) (h4 : b.fails = false) :
    (∃ tl, (triggerTrace e msg n).1
        = Ev.acqTry true :: Ev.rel :: Ev.acq :: tl)
      ∧ (∀ p ∈ emitsWithLock false (triggerTrace e msg n).1, p.2 = true)
      ∧ lockAfter false (triggerTrace e msg n).1 = false := by
  rw [triggerTrace_branch e msg n i j b h1 h2 h3 h4]
  refine ⟨⟨_, rfl⟩, ?_, ?_⟩
  · intro p hp
    simp [emitsWithLock_append, emitsWithLock, emitsWithLock_passCmd,
          emitsWithLock_passAll, lockAfter_append, lockAfter,
          lockAfter_passCmd, lockAfter_passAll] at hp
    rcases hp with h | h | h
    · rw [h]
    · rcases h with ⟨c, _, hc⟩
      rw [← hc]
    · rw [h]
  · simp [lockAfter_append, lockAfter, lockAfter_passCmd, lockAfter_passAll]

/-- Witness for C3 (amended): the scenario engine's first checkpoint
satisfies the hypotheses, and every emission of its substitution happens
with the lock held. -/
theorem lock_window_C3_witness :
    scenarioEngine.choice 0 = some 0 ∧ scenarioEngine.choice 1 = some 0
      ∧ scenarioEngine.branches[0]? = some ⟨[Cmd.move 7], false⟩
      ∧ (∀ p ∈ emitsWithLock false
            (triggerTrace scenarioEngine Cmd.checkpoint 0).1, p.2 = true) :=
  ⟨rfl, rfl, rfl,
   (lock_window_C3 scenarioEngine Cmd.checkpoint 0 0 0
      ⟨[Cmd.move 7], false⟩ rfl rfl rfl rfl).2.1⟩

/-- C4: a trigger message pulled while the BranchLock is already held fails
the non-blocking acquire and passes through unchanged — no error, no
selector evaluation, no nested branch — and consequently, over any whole
run, no lock acquisition ever succeeds while the lock is held (at most one
branch substitution is in transition at any instant). -/
theorem reentrant_passthrough_C4 :
    (∀ (e : Engine) (msg : Cmd) (n : Nat), msg.kind = e.bmsg →
        stepMsg e true msg n = ([Ev.acqTry false, Ev.emit msg], n, true))
      ∧ ∀ (e : Engine) (plan : List Cmd) (n : Nat),
          noNestedAcq false (engineTrace e plan n).1 = true := by
  constructor
  · intro e msg n hk
    simp [stepMsg, hk]
  · exact engineTrace_noNested

/-- Witness for C4: a checkpoint fed to the scenario engine's handler with
the lock held passes through unchanged. -/
theorem reentrant_passthrough_C4_witness :
    Cmd.checkpoint.kind = scenarioEngine.bmsg
      ∧ stepMsg scenarioEngine true Cmd.checkpoint 0
          = ([Ev.acqTry false, Ev.emit Cmd.checkpoint], 0, true) :=
  ⟨rfl, reentrant_passthrough_C4.1 scenarioEngine Cmd.checkpoint 0 rfl⟩

/-- A yag whose position reads `IN` and whose signal reads are all `0`. -/
def yagIn : Yag := ⟨true, fun _ => 0⟩

/-- A yag whose position does not read `IN`. -/
def yagOut : Yag := ⟨false, fun _ => 0⟩

set_option maxRecDepth 4000 in
/-- C5 counterexample: with sensor 1 reporting `IN` and all 25 of its samples
equal to `0`, below the floor `1`, the claim requires the selector to return
branch index `0`; the selector returns `None` (its body starts with an
unconditional `return None`), while the unreachable tail logic would indeed
have returned `0`. -/
theorem pick_recover_C5_counterexample :
    yagIn.pos_in = true ∧ sampleMax yagIn 25 < 1
      ∧ pick_recover yagIn yagOut (1, 1) ≠ some 0
      ∧ pick_recover_tail yagIn yagOut (1, 1) = some 0 :=
  ⟨rfl, by decide, by decide, by decide⟩

/-- C5 (amended): the selector produced by `make_pick_recover` always
returns `None` when called — its body's first statement is an unconditional
`return None`, so the two-sensor 25-sample floor-comparison logic after it
is unreachable. -/
theorem pick_recover_C5 (yag1 yag2 : Yag) (threshold : Int × Int) :
    pick_recover yag1 yag2 threshold = none := rfl

/-- C6: when the chosen branch raises a terminal failure during its
execution, the exception propagates out of the engine (the run ends
unsuccessfully), the output stream stops after the fresh trigger and the
branch's commands — the remaining primary commands are never emitted and the
branch is not retried — and the BranchLock is released. -/
theorem branch_failure_C6 (e : Engine) (msg : Cmd) (rest : List Cmd)
    (n i j : Nat) (b : BPlan) (hk : msg.kind = e.bmsg)
    (h1 : e.choice n = some i) (h2 : e.choice (n + 1) = some j)
    (h3 : e.branches[j]? = some b) (h4 : b.fails = true) :
    (engineTrace e (msg :: rest) n).2.2 = false
      ∧ engineOutFrom e (msg :: rest) n = Cmd.checkpoint :: b.cmds
      ∧ lockAfter false (engineTrace e (msg :: rest) n).1 = false := by
  have htt := triggerTrace_fail e msg n i j b h1 h2 h3 h4
  have hen := engineTrace_cons_trigger_fail e msg rest n (n + 2) _ hk htt
  refine ⟨by rw [hen], ?_, ?_⟩
  · simp [engineOutFrom, hen, output, output_append, output_passCmd,
          output_passAll]
  · rw [hen]
    simp [lockAfter_append, lockAfter, lockAfter_passCmd, lockAfter_passAll]

/-- Witness for C6: the failing engine's run aborts after
`[Checkpoint, Move(3)]` with the lock free. -/
theorem branch_failure_C6_witness :
    failEngine.choice 0 = some 0 ∧ failEngine.choice 1 = some 0
      ∧ failEngine.branches[0]? = some ⟨[Cmd.move 3], true⟩
      ∧ (engineTrace failEngine [Cmd.checkpoint, Cmd.move 1] 0).2.2 = false
      ∧ engineOutFrom failEngine [Cmd.checkpoint, Cmd.move 1] 0
          = Cmd.checkpoint :: [Cmd.move 3]
      ∧ lockAfter false
          (engineTrace failEngine [Cmd.checkpoint, Cmd.move 1] 0).1
        = false := by
  have h := branch_failure_C6 failEngine Cmd.checkpoint [Cmd.move 1] 0 0 0
      ⟨[Cmd.move 3], true⟩ rfl rfl rfl rfl rfl
  exact ⟨rfl, rfl, rfl, h.1, h.2.1, h.2.2⟩

/-- C7: the initial scan direction computed by `make_homs_recover`'s plan
factory is `1` exactly when the actuator's position is strictly below the
center setpoint and `-1` otherwise, equality included. -/
theorem homs_recover_direction_C7 (position center : ℚ) :
    (position < center → homs_recover_dir_init position center = 1)
      ∧ (center ≤ position → homs_recover_dir_init position center = -1) := by
  constructor
  · intro h
    unfold homs_recover_dir_init
    rw [if_pos h]
  · intro h
    unfold homs_recover_dir_init
    rw [if_neg (not_lt.2 h)]

/-- Witness for C7: with center 240, position 100 gives direction `1` and
position 300 gives direction `-1`. -/
theorem homs_recover_direction_C7_witness :
    (100 : ℚ) < 240 ∧ homs_recover_dir_init 100 240 = 1
      ∧ (240 : ℚ) ≤ 300 ∧ homs_recover_dir_init 300 240 = -1 :=
  ⟨by norm_num, (homs_recover_direction_C7 100 240).1 (by norm_num),
   by norm_num, (homs_recover_direction_C7 300 240).2 (by norm_num)⟩

/-- C8: a device is in the pruned path exactly when it is in the original
path's devices and not excluded, and the pruned device list is a sublist of
the original (no fabricated elements, order preserved); the original list is
a value and is untouched. -/
theorem prune_path_C8 {α : Type} [DecidableEq α]
    (devices exclude : List α) (d : α) :
    (d ∈ prune_path devices exclude ↔ d ∈ devices ∧ d ∉ exclude)
      ∧ (prune_path devices exclude).Sublist devices := by
  constructor
  · simp [prune_path]
  · exact List.filter_sublist devices

/-- C9: when the first selector evaluation at a trigger returns an index,
the substitution generator evaluates the selector a second time (the call
counter advances by two, and both evaluation events appear in the trace);
the branch actually executed is the one indexed by the second evaluation's
result; and when the second evaluation returns `None`, the output contains a
fresh trigger, a single `Null` command and the original trigger, with no
branch plan run. -/
theorem double_evaluation_C9 :
    (∀ (e : Engine) (msg : Cmd) (rest : List Cmd) (n i j : Nat) (b : BPlan),
        msg.kind = e.bmsg → e.choice n = some i →
        e.choice (n + 1) = some j →
        e.branches[j]? = some b → b.fails = false →
        engineOutFrom e (msg :: rest) n
            = Cmd.checkpoint :: (b.cmds ++ msg :: engineOutFrom e rest (n + 2))
          ∧ (triggerTrace e msg n).2.1 = n + 2
          ∧ Ev.eval n (some i) ∈ (triggerTrace e msg n).1
          ∧ Ev.eval (n + 1) (some j) ∈ (triggerTrace e msg n).1)
      ∧ ∀ (e : Engine) (msg : Cmd) (rest : List Cmd) (n i : Nat),
          msg.kind = e.bmsg → e.choice n = some i →
          e.choice (n + 1) = none →
          engineOutFrom e (msg :: rest) n
            = Cmd.checkpoint :: Cmd.null :: msg
                :: engineOutFrom e rest (n + 2) := by
  constructor
  · intro e msg rest n i j b hk h1 h2 h3 h4
    refine ⟨engineOutFrom_trigger_branch e msg rest n i j b hk h1 h2 h3 h4,
            ?_, ?_, ?_⟩ <;>
      rw [triggerTrace_branch e msg n i j b h1 h2 h3 h4] <;> simp
  · intro e msg rest n i hk h1 h2
    exact engineOutFrom_trigger_nullBranch e msg rest n i hk h1 h2

/-- Witness for C9: the two-evaluation engine's selector returns `1` first
and `0` second, and the branch executed is `branches[0]` (emitting
`Move(5)`), i.e. the one picked by the second evaluation. -/
theorem double_evaluation_C9_witness :
    twoEvalEngine.choice 0 = some 1 ∧ twoEvalEngine.choice 1 = some 0
      ∧ twoEvalEngine.branches[0]? = some ⟨[Cmd.move 5], false⟩
      ∧ engineOutFrom twoEvalEngine (Cmd.checkpoint :: [Cmd.move 1]) 0
          = Cmd.checkpoint :: ([Cmd.move 5] ++ Cmd.checkpoint
              :: engineOutFrom twoEvalEngine [Cmd.move 1] 2) := by
  have h := double_evaluation_C9.1 twoEvalEngine Cmd.checkpoint [Cmd.move 1]
      0 1 0 ⟨[Cmd.move 5], false⟩ rfl rfl rfl rfl rfl
  exact ⟨rfl, rfl, rfl, h.1⟩

/-- C10: `homs_skywalker` records the original goal values in its run
metadata while driving the underlying plan with `480 - g` for each goal `g`,
and a metadata goal equals its driven counterpart exactly when the goal is
`240`. -/
theorem homs_goals_metadata_C10 (goals : List ℚ) :
    (homs_skywalker_goals goals).md_goals = goals
      ∧ (homs_skywalker_goals goals).driven_goals
          = goals.map (fun g => 480 - g)
      ∧ ∀ g : ℚ,
          ((homs_skywalker_goals [g]).driven_goals
              = (homs_skywalker_goals [g]).md_goals ↔ g = 240) := by
  refine ⟨rfl, rfl, ?_⟩
  intro g
  simp only [homs_skywalker_goals, List.map_cons, List.map_nil,
             List.cons.injEq, and_true]
  constructor
  · intro h
    linarith
  · intro h
    rw [h]
    norm_num

end Pswalker
